import Mathlib

/-!
# Verification of the Stardog language-server core

Shallow embedding of the completion / diagnostics pipeline of the
`stardog-language-servers` repository:

* `SmsLanguageServer` (`handleCompletion`, `onContentChange`), and
* `TrigLanguageServer` (`onInitialization`, `onContentChange`, `parseDocument`).

The parser adapter (millan), the editor-protocol transport and the document
store are external collaborators: they are modelled as abstract data
(functions carried in structures).  Pieces of this repository that live in
`stardog-language-utils` (the `AbstractLanguageServer` base class and the
parse-state manager) are not in the sources at hand; they are modelled from
the spec and marked as such in their doc comments.
-/

set_option autoImplicit false

/-- Chevrotain-style token: `{tokenType, startOffset, endOffset, image}`.
`endOffset` is the source's inclusive offset of the token's last character. -/
structure Token where
  image : String
  startOffset : Nat
  endOffset : Nat
  deriving Repr, DecidableEq

/-- LSP position (line/character). -/
structure Position where
  line : Nat
  character : Nat
  deriving Repr, DecidableEq

/-- LSP range.  Field names `startPos`/`endPos` stand for the protocol's
`start`/`end` (the latter is a Lean keyword). -/
structure LspRange where
  startPos : Position
  endPos : Position
  deriving Repr, DecidableEq

/-- LSP text edit: replace `range` with `newText`. -/
structure TextEdit where
  range : LspRange
  newText : String
  deriving Repr, DecidableEq

/-- LSP completion item, with the fields the SMS server fills in.
`kind` and `insertTextFormat` hold the protocol's numeric codes. -/
structure CompletionItem where
  label : String
  kind : Nat
  detail : String
  documentation : String
  insertTextFormat : Nat
  textEdit : TextEdit
  deriving Repr, DecidableEq

/-- A raw lexical or syntactic error from the parser adapter.  The
diagnostics translators consume it; this embedding keeps them abstract, so
only the message is carried. -/
structure ParseError where
  message : String
  deriving Repr, DecidableEq

/-- LSP diagnostic (`severity` is the protocol's numeric code; 1 = error). -/
structure Diagnostic where
  range : LspRange
  severity : Nat
  message : String
  deriving Repr, DecidableEq

/-- The payload of one `connection.sendDiagnostics` call. -/
structure DiagnosticsBatch where
  uri : String
  diagnostics : List Diagnostic
  deriving Repr, DecidableEq

/-- Concrete syntax tree.  The embedded code never inspects the CST, it only
stores it in the parse-state cache; an opaque numeric payload suffices. -/
abbrev CST := Nat

/-- A text document as seen through the protocol library: its URI, its text,
and the library's offset/position conversions.  `positionAt` takes an `Int`
because the completion engine passes it `cursorOffset - 1`, which in the
source is plain JavaScript number arithmetic and may be negative. -/
structure TextDocument where
  uri : String
  text : String
  offsetAt : Position → Nat
  positionAt : Int → Position

/-- One content-assist candidate returned by
`parser.computeContentAssist`; the source only looks at
`completion.nextTokenType.tokenName`. -/
structure CompletionCandidate where
  nextTokenTypeName : String
  deriving Repr, DecidableEq

/-! ## Token-before-cursor search (SmsLanguageServer.ts, lines 84-91)

```js
let tokenIndexBeforeCursor = -1;
for (let index = tokens.length - 1; index > -1; index--) {
  const token = tokens[index];
  if (token.endOffset + 1 < cursorOffset) {
    tokenIndexBeforeCursor = index;
    break;
  }
}
```
-/

/-- The body of the backward scan: `tokenSearchGo tokens C n` inspects
indices `n-1, n-2, …, 0` in that order and returns the first index whose
token satisfies `endOffset + 1 < C`, or `-1` when none does. -/
def tokenSearchGo (tokens : List Token) (cursorOffset : Nat) : Nat → Int
  | 0 => -1
  | n + 1 =>
    match tokens[n]? with
    | some token =>
      if token.endOffset + 1 < cursorOffset then (n : Int)
      else tokenSearchGo tokens cursorOffset n
    | none => tokenSearchGo tokens cursorOffset n

/-- `tokenIndexBeforeCursor` from `handleCompletion`: the backward scan
started at `tokens.length - 1`. -/
def tokenIndexBeforeCursor (tokens : List Token) (cursorOffset : Nat) : Int :=
  tokenSearchGo tokens cursorOffset tokens.length

/-! ## Cursor-in-token check (SmsLanguageServer.ts, lines 93-105) -/

/-- `isCursorInToken` from `handleCompletion`: look at the token following
the token-before-cursor (JavaScript `tokens[tokenIndexBeforeCursor + 1]`,
which is `tokens[0]` when the sentinel `-1` was returned, and `undefined`
— hence falsy — past the end), and report the cursor inside it when it is
non-empty and the cursor offset falls within `[startOffset, endOffset]`
inclusive. -/
def isCursorInToken (tokens : List Token) (cursorOffset : Nat) : Bool :=
  match tokens[(tokenIndexBeforeCursor tokens cursorOffset + 1).toNat]? with
  | some u =>
    decide (u.startOffset ≤ cursorOffset) &&
      decide (cursorOffset ≤ u.endOffset) &&
        decide (u.startOffset ≠ u.endOffset)
  | none => false

example : tokenIndexBeforeCursor [⟨"ab", 0, 1⟩, ⟨"cd", 3, 4⟩] 3 = 0 := by decide
example : tokenIndexBeforeCursor [⟨"ab", 0, 1⟩, ⟨"cd", 3, 4⟩] 2 = -1 := by decide
example : tokenIndexBeforeCursor [⟨"ab", 0, 1⟩, ⟨"cd", 3, 4⟩] 6 = 1 := by decide
example : isCursorInToken [⟨"ab", 0, 1⟩, ⟨"cd", 3, 4⟩] 3 = true := by decide
example : isCursorInToken [⟨"ab", 0, 1⟩, ⟨"cd", 3, 4⟩] 2 = false := by decide
example : isCursorInToken [⟨"ab", 0, 1⟩, ⟨"cd", 3, 4⟩] 4 = true := by decide
example : isCursorInToken [⟨"ab", 0, 1⟩, ⟨"cd", 3, 4⟩] 5 = false := by decide

/-! ## Parse state cache and parse entry point

`ParseStateManager` and `AbstractLanguageServer.parseDocument` live in the
repository's `stardog-language-utils` package, which is not among the
sources at hand; they are modelled from the spec. -/

/-- `{tokens, cst}` cached per document URI. -/
structure ParseState where
  cst : CST
  tokens : List Token

/-- Modelled from the spec: the Parse State Cache is a per-document-URI
store of the most recent `{tokens, cst}` pair, `get(uri) -> ParseState |
absent`. -/
def ParseStateMap := String → Option ParseState

/-- Modelled from the spec: `get(uri) -> ParseState | absent`. -/
def getParseStateForUri (m : ParseStateMap) (uri : String) : Option ParseState :=
  m uri

/-- Modelled from the spec: `put(uri, ParseState)`; an entry is overwritten,
not merged. -/
def saveParseStateForUri (m : ParseStateMap) (uri : String) (st : ParseState) :
    ParseStateMap :=
  fun u => if u = uri then some st else m u

/-- What the millan SMS parser adapter produces for a document text: a CST,
a token sequence and the error list.  The adapter is an external
collaborator, kept abstract. -/
structure SmsParseOut where
  cst : CST
  tokens : List Token
  errors : List ParseError

/-- The millan `SmsParser` adapter: `parse` plus the content-assist query
`computeContentAssist(ruleName, tokenPrefix)`. -/
structure SmsParser where
  parse : String → SmsParseOut
  computeContentAssist : String → List Token → List CompletionCandidate

/-- Modelled from the spec: `AbstractLanguageServer.parseDocument`
(package `stardog-language-utils`) runs the parser adapter's parse entry
point exactly once on the document's text and returns its
`{cst, tokens, errors}`. -/
def smsParseDocument (parser : SmsParser) (document : TextDocument) : SmsParseOut :=
  parser.parse document.text

/-! ## SmsLanguageServer.handleCompletion (SmsLanguageServer.ts, lines 72-137) -/

/-- The SMS server state visible to `handleCompletion`: the parser, the
protocol library's document store (`documents.get`), and the parse-state
cache. -/
structure SmsServer where
  parser : SmsParser
  documents : String → Option TextDocument
  parseStates : ParseStateMap

/-- JavaScript runtime failure: dereferencing `undefined` throws. -/
inductive JsError where
  | typeError
  deriving Repr, DecidableEq

/-- `handleCompletion` returns `undefined` (here `none`) or an array of
completion items; the outcome also records the updated cache and how many
times the parser adapter's parse entry point was invoked. -/
structure SmsCompletionOutcome where
  response : Option (List CompletionItem)
  parseStates : ParseStateMap
  parseCalls : Nat

/-- Modelled from the spec: `sms2Snippets.basicSMS2Mapping` (package
`stardog-language-utils`) is a pre-authored multi-placeholder snippet body;
its exact text plays no role in the control flow. -/
def basicSMS2Mapping : String :=
  "MAPPING <urn:mapping> FROM SQL ... TO ... WHERE ..."

/-- The single completion item literal of `handleCompletion`
(SmsLanguageServer.ts, lines 119-135): `CompletionItemKind.Enum = 13`,
`InsertTextFormat.Snippet = 2`, and a zero-width `TextEdit.replace` range
at `positionAt(cursorOffset - 1)`. -/
def smsCompletionItem (document : TextDocument) (cursorOffset : Nat) : CompletionItem :=
  { label := "basicSMS2Mapping"
    kind := 13
    detail := "Create a basic fill-in-the-blanks SMS2 mapping"
    documentation :=
      "Inserts a basic mapping in Stardog Mapping Syntax 2 (SMS2) with tabbing functionality and content assistance. For more documentation of SMS2, check out \"Help\" --> \"Stardog Docs\"."
    insertTextFormat := 2
    textEdit :=
      { range :=
          { startPos := document.positionAt ((cursorOffset : Int) - 1)
            endPos := document.positionAt ((cursorOffset : Int) - 1) }
        newText := basicSMS2Mapping } }

/-- The token sequence `handleCompletion` works with: the cached tokens when
the cache has an entry for the URI, otherwise the tokens of a fresh parse. -/
def usedTokens (server : SmsServer) (uri : String) (document : TextDocument) :
    List Token :=
  match getParseStateForUri server.parseStates uri with
  | some st => st.tokens
  | none => (smsParseDocument server.parser document).tokens

/-- The token slice handed to `computeContentAssist`
(SmsLanguageServer.ts, lines 107-112): the empty sequence when the search
returned the sentinel `-1`, otherwise `tokens.slice(0, index + 1)`. -/
def prefixTokens (tokens : List Token) (cursorOffset : Nat) : List Token :=
  if tokenIndexBeforeCursor tokens cursorOffset = -1 then []
  else tokens.take (tokenIndexBeforeCursor tokens cursorOffset + 1).toNat

/-- The completion logic of `handleCompletion` once tokens are in hand
(SmsLanguageServer.ts, lines 84-137): bail out with no response when the
cursor is inside a token, otherwise run the content-assist query and emit
the single snippet item exactly when some candidate's next token type is
named `Mapping`. -/
def smsCompletionResponse (server : SmsServer) (document : TextDocument)
    (tokens : List Token) (cursorOffset : Nat) : Option (List CompletionItem) :=
  if isCursorInToken tokens cursorOffset then none
  else
    let completions :=
      server.parser.computeContentAssist "MappingDoc" (prefixTokens tokens cursorOffset)
    if completions.any fun completion => completion.nextTokenTypeName = "Mapping" then
      some [smsCompletionItem document cursorOffset]
    else none

/-- `SmsLanguageServer.handleCompletion` (SmsLanguageServer.ts, lines
72-137).  `documents.get(uri)` may yield `undefined`; the source then
dereferences it (`document.offsetAt`), which throws a `TypeError`, embedded
as the `Except` error case. -/
def handleCompletion (server : SmsServer) (uri : String) (position : Position) :
    Except JsError SmsCompletionOutcome :=
  match server.documents uri with
  | none => .error .typeError
  | some document =>
    let cursorOffset := document.offsetAt position
    match getParseStateForUri server.parseStates uri with
    | some st =>
      .ok { response := smsCompletionResponse server document st.tokens cursorOffset
            parseStates := server.parseStates
            parseCalls := 0 }
    | none =>
      let fresh := smsParseDocument server.parser document
      .ok { response := smsCompletionResponse server document fresh.tokens cursorOffset
            parseStates :=
              saveParseStateForUri server.parseStates uri
                { cst := fresh.cst, tokens := fresh.tokens }
            parseCalls := 1 }

/-- Project the response out of a `handleCompletion` result (`none` when the
call threw). -/
def responseOf (r : Except JsError SmsCompletionOutcome) :
    Option (Option (List CompletionItem)) :=
  match r with
  | .ok o => some o.response
  | .error _ => none

/-- Project the parse-call count out of a `handleCompletion` result. -/
def parseCallsOf (r : Except JsError SmsCompletionOutcome) : Option Nat :=
  match r with
  | .ok o => some o.parseCalls
  | .error _ => none

/-- Project the resulting cache out of a `handleCompletion` result. -/
def parseStatesOf (r : Except JsError SmsCompletionOutcome) : Option ParseStateMap :=
  match r with
  | .ok o => some o.parseStates
  | .error _ => none

/-! ## onContentChange

`SmsLanguageServer.onContentChange` (SmsLanguageServer.ts, lines 47-70) and
`TrigLanguageServer.onContentChange`
(TrigLanguageServer.ts, lines 35-60)
have the same body: on empty text send an empty diagnostics batch and
return; otherwise send the lexical diagnostics followed by the parse
diagnostics as one batch.  `getLexDiagnostics` / `getParseDiagnostics`
belong to the `AbstractLanguageServer` base class (not in the sources at
hand) and are taken as abstract parameters; the embedding returns the
payload of the single `sendDiagnostics` call the handler makes. -/

/-- The parse results handed to `SmsLanguageServer.onContentChange`
(the return of `parseDocument`). -/
structure SmsParseResults where
  cst : CST
  tokens : List Token
  errors : List ParseError

/-- `SmsLanguageServer.onContentChange` (SmsLanguageServer.ts, lines 47-70). -/
def SmsLanguageServer.onContentChange
    (getLexDiagnostics : TextDocument → List Token → List Diagnostic)
    (getParseDiagnostics : TextDocument → List ParseError → List Diagnostic)
    (document : TextDocument) (parseResults : SmsParseResults) : DiagnosticsBatch :=
  if document.text.length = 0 then
    { uri := document.uri, diagnostics := [] }
  else
    { uri := document.uri
      diagnostics :=
        getLexDiagnostics document parseResults.tokens ++
          getParseDiagnostics document parseResults.errors }

/-! ## TrigLanguageServer
(TrigLanguageServer.ts) -/

/-- The millan TriG parser's `otherParseData` (everything `parse` returns
besides `cst` and `errors`); opaque to the server code. -/
abbrev TrigOtherParseData := Nat

/-- The observable effect of one `TrigParser.parse(content, mode)` call:
the returned `{cst, errors, ...otherParseData}` together with the token
stream the adapter exposes as `parser.input` right after that call. -/
structure TrigParseRun where
  cst : CST
  errors : List ParseError
  otherParseData : TrigOtherParseData
  input : List Token

/-- The millan `TrigParser` adapter, abstract: `parseRun text mode` bundles
the result of `parse(text, mode)` with the subsequent `parser.input` read. -/
structure TrigParser where
  parseRun : String → String → TrigParseRun

/-- The per-session server state: the dialect mode (`private mode:
ModeString = 'standard'`). -/
structure TrigServerState where
  mode : String
  deriving Repr, DecidableEq

/-- The state a `TrigLanguageServer` starts in: default mode `standard`. -/
def initialTrigState : TrigServerState :=
  { mode := "standard" }

/-- The client's initialization options: an optional object carrying an
optional `mode` value. -/
structure InitializationOptions where
  mode : Option String
  deriving Repr, DecidableEq

/-- The slice of `InitializeParams` the TriG server reads. -/
structure InitializeParams where
  initializationOptions : Option InitializationOptions
  deriving Repr, DecidableEq

/-- The mode mutation of `TrigLanguageServer.onInitialization`
(TrigLanguageServer.ts, lines 17-24): adopt `initializationOptions.mode`
only when the options object exists and the value is exactly `stardog` or
`standard`. -/
def TrigLanguageServer.onInitialization (s : TrigServerState)
    (params : InitializeParams) : TrigServerState :=
  match params.initializationOptions with
  | some opts =>
    if opts.mode = some "stardog" ∨ opts.mode = some "standard" then
      { s with mode := opts.mode.getD s.mode }
    else s
  | none => s

/-- `TrigLanguageServer.parseDocument` (TrigLanguageServer.ts, lines 62-80):
parse the document's text with the session's mode, read the tokens from
`parser.input`, and return `{cst, tokens, errors, otherParseData}`. -/
structure TrigParseResults where
  cst : CST
  tokens : List Token
  errors : List ParseError
  otherParseData : TrigOtherParseData

/-- `TrigLanguageServer.parseDocument` (TrigLanguageServer.ts, lines 62-80). -/
def TrigLanguageServer.parseDocument (parser : TrigParser) (s : TrigServerState)
    (document : TextDocument) : TrigParseResults :=
  let run := parser.parseRun document.text s.mode
  { cst := run.cst
    tokens := run.input
    errors := run.errors
    otherParseData := run.otherParseData }

/-- `TrigLanguageServer.onContentChange` (TrigLanguageServer.ts, lines
35-60). -/
def TrigLanguageServer.onContentChange
    (getLexDiagnostics : TextDocument → List Token → List Diagnostic)
    (getParseDiagnostics : TextDocument → List ParseError → List Diagnostic)
    (document : TextDocument) (parseResults : TrigParseResults) : DiagnosticsBatch :=
  if document.text.length = 0 then
    { uri := document.uri, diagnostics := [] }
  else
    { uri := document.uri
      diagnostics :=
        getLexDiagnostics document parseResults.tokens ++
          getParseDiagnostics document parseResults.errors }

/-! ## Theorems -/

/-- Specification of the backward scan `tokenSearchGo`: scanning indices
below `n` either finds nothing satisfying `endOffset + 1 < C` and yields the
sentinel `-1`, or yields the greatest index below `n` whose token satisfies
it. -/
theorem tokenSearchGo_spec (tokens : List Token) (C : Nat) (n : Nat) :
    (tokenSearchGo tokens C n = -1 ∧
      ∀ i : Nat, i < n → ∀ t : Token, tokens[i]? = some t → ¬(t.endOffset + 1 < C)) ∨
    (∃ i : Nat, i < n ∧ tokenSearchGo tokens C n = (i : Int) ∧
      (∃ t : Token, tokens[i]? = some t ∧ t.endOffset + 1 < C) ∧
      ∀ j : Nat, i < j → j < n → ∀ t : Token, tokens[j]? = some t →
        ¬(t.endOffset + 1 < C)) := by
  induction n with
  | zero => exact Or.inl ⟨rfl, fun i hi => by omega⟩
  | succ n ih =>
    rcases h : tokens[n]? with _ | t
    · rcases ih with ⟨h1, h2⟩ | ⟨i, hi, hgo, hp, hnp⟩
      · refine Or.inl ⟨?_, ?_⟩
        · simp [tokenSearchGo, h, h1]
        · intro i hi t ht
          have hcase : i < n ∨ i = n := by omega
          rcases hcase with hi' | rfl
          · exact h2 i hi' t ht
          · simp [h] at ht
      · refine Or.inr ⟨i, by omega, ?_, hp, ?_⟩
        · simp [tokenSearchGo, h, hgo]
        · intro j hij hj t ht
          have hcase : j < n ∨ j = n := by omega
          rcases hcase with hj' | rfl
          · exact hnp j hij hj' t ht
          · simp [h] at ht
    · by_cases hc : t.endOffset + 1 < C
      · refine Or.inr ⟨n, by omega, ?_, ⟨t, h, hc⟩, ?_⟩
        · simp [tokenSearchGo, h, hc]
        · intro j hij hj t' ht'
          omega
      · rcases ih with ⟨h1, h2⟩ | ⟨i, hi, hgo, hp, hnp⟩
        · refine Or.inl ⟨?_, ?_⟩
          · simp [tokenSearchGo, h, hc, h1]
          · intro i hi t' ht'
            have hcase : i < n ∨ i = n := by omega
            rcases hcase with hi' | rfl
            · exact h2 i hi' t' ht'
            · rw [h] at ht'
              cases ht'
              exact hc
        · refine Or.inr ⟨i, by omega, ?_, hp, ?_⟩
          · simp [tokenSearchGo, h, hc, hgo]
          · intro j hij hj t' ht'
            have hcase : j < n ∨ j = n := by omega
            rcases hcase with hj' | rfl
            · exact hnp j hij hj' t' ht'
            · rw [h] at ht'
              cases ht'
              exact hc

/-- Claim C1: for every token sequence (with the data model's strictly
increasing `endOffset`s) and cursor offset `C`, the token-before-cursor
search of `handleCompletion` selects the unique token `t` maximizing
`t.endOffset` subject to `t.endOffset + 1 < C`, or the before-start
sentinel `-1` when no token satisfies this. -/
theorem C1_token_before_cursor_search (tokens : List Token) (C : Nat)
    (hmono : ∀ i j : Fin tokens.length, (i : Nat) < (j : Nat) →
      (tokens.get i).endOffset < (tokens.get j).endOffset) :
    (tokenIndexBeforeCursor tokens C = -1 ∧
      ∀ t ∈ tokens, ¬(t.endOffset + 1 < C)) ∨
    (∃ i : Fin tokens.length,
      tokenIndexBeforeCursor tokens C = ((i : Nat) : Int) ∧
      (tokens.get i).endOffset + 1 < C ∧
      ∀ j : Fin tokens.length, (tokens.get j).endOffset + 1 < C →
        (tokens.get j).endOffset ≤ (tokens.get i).endOffset ∧
        ((tokens.get j).endOffset = (tokens.get i).endOffset → j = i)) := by
  rcases tokenSearchGo_spec tokens C tokens.length with
    ⟨h1, h2⟩ | ⟨i, hi, hgo, ⟨t, ht, htc⟩, hnp⟩
  · refine Or.inl ⟨h1, ?_⟩
    intro t htmem
    rcases List.mem_iff_get.mp htmem with ⟨k, hk⟩
    refine h2 k.val k.isLt t ?_
    rw [List.getElem?_eq_getElem k.isLt, ← hk, List.get_eq_getElem]
  · have hti : t = tokens.get ⟨i, hi⟩ := by
      have := List.getElem?_eq_getElem hi (l := tokens)
      rw [ht] at this
      rw [List.get_eq_getElem]
      exact Option.some.inj this
    refine Or.inr ⟨⟨i, hi⟩, hgo, by rw [← hti]; exact htc, ?_⟩
    intro j hj
    have hcase : j.val < i ∨ j.val = i ∨ i < j.val := by omega
    rcases hcase with hlt | heq | hgt
    · have hm := hmono j ⟨i, hi⟩ hlt
      exact ⟨Nat.le_of_lt hm, fun he => absurd he (Nat.ne_of_lt hm)⟩
    · have : j = (⟨i, hi⟩ : Fin tokens.length) := Fin.ext heq
      exact ⟨by rw [this], fun _ => this⟩
    · exfalso
      refine hnp j.val hgt j.isLt (tokens.get j) ?_ hj
      rw [List.getElem?_eq_getElem j.isLt, List.get_eq_getElem]

/-- Claim C1, witness: the theorem applied to a concrete strictly increasing
token sequence (`[0,1]` and `[3,4]`) with the cursor at offset 6, where the
search must pick index 1. -/
theorem C1_token_before_cursor_search_witness :
    (∀ i j : Fin ([⟨"ab", 0, 1⟩, ⟨"cd", 3, 4⟩] : List Token).length,
      (i : Nat) < (j : Nat) →
      (([⟨"ab", 0, 1⟩, ⟨"cd", 3, 4⟩] : List Token).get i).endOffset <
        (([⟨"ab", 0, 1⟩, ⟨"cd", 3, 4⟩] : List Token).get j).endOffset) ∧
    ((tokenIndexBeforeCursor [⟨"ab", 0, 1⟩, ⟨"cd", 3, 4⟩] 6 = -1 ∧
        ∀ t ∈ ([⟨"ab", 0, 1⟩, ⟨"cd", 3, 4⟩] : List Token),
          ¬(t.endOffset + 1 < 6)) ∨
      (∃ i : Fin ([⟨"ab", 0, 1⟩, ⟨"cd", 3, 4⟩] : List Token).length,
        tokenIndexBeforeCursor [⟨"ab", 0, 1⟩, ⟨"cd", 3, 4⟩] 6 = ((i : Nat) : Int) ∧
        (([⟨"ab", 0, 1⟩, ⟨"cd", 3, 4⟩] : List Token).get i).endOffset + 1 < 6 ∧
        ∀ j : Fin ([⟨"ab", 0, 1⟩, ⟨"cd", 3, 4⟩] : List Token).length,
          (([⟨"ab", 0, 1⟩, ⟨"cd", 3, 4⟩] : List Token).get j).endOffset + 1 < 6 →
          (([⟨"ab", 0, 1⟩, ⟨"cd", 3, 4⟩] : List Token).get j).endOffset ≤
              (([⟨"ab", 0, 1⟩, ⟨"cd", 3, 4⟩] : List Token).get i).endOffset ∧
            ((([⟨"ab", 0, 1⟩, ⟨"cd", 3, 4⟩] : List Token).get j).endOffset =
                (([⟨"ab", 0, 1⟩, ⟨"cd", 3, 4⟩] : List Token).get i).endOffset →
              j = i))) :=
  ⟨by decide, C1_token_before_cursor_search [⟨"ab", 0, 1⟩, ⟨"cd", 3, 4⟩] 6 (by decide)⟩

/-! ## Concrete fixtures for witnesses and counterexamples -/

/-- A two-token sequence, `ab` at offsets `[0,1]` and `cd` at `[3,4]`
(document text `ab cd`). -/
def demoTokens : List Token :=
  [⟨"ab", 0, 1⟩, ⟨"cd", 3, 4⟩]

/-- A concrete document over the text `ab cd`.  `positionAt` maps offset
`o` to character `o + 10` so that distinct (including negative) offsets
stay distinguishable. -/
def demoDoc : TextDocument where
  uri := "file:demo.sms"
  text := "ab cd"
  offsetAt := fun p => p.character
  positionAt := fun o => ⟨0, (o + 10).toNat⟩

/-- A concrete SMS parser adapter whose content-assist query always offers
the `Mapping` continuation. -/
def demoParser : SmsParser where
  parse := fun _ => { cst := 0, tokens := demoTokens, errors := [] }
  computeContentAssist := fun _ _ => [{ nextTokenTypeName := "Mapping" }]

/-- An SMS server holding `demoDoc` with a warm parse-state cache. -/
def demoServer : SmsServer where
  parser := demoParser
  documents := fun u => if u = "file:demo.sms" then some demoDoc else none
  parseStates := fun u =>
    if u = "file:demo.sms" then some { cst := 0, tokens := demoTokens } else none

/-- The same server with a cold parse-state cache. -/
def demoServerNoCache : SmsServer where
  parser := demoParser
  documents := fun u => if u = "file:demo.sms" then some demoDoc else none
  parseStates := fun _ => none

/-- A server whose document store has no entry at all. -/
def noDocServer : SmsServer where
  parser := demoParser
  documents := fun _ => none
  parseStates := fun _ => none

/-- An empty document. -/
def emptyDoc : TextDocument where
  uri := "file:empty.sms"
  text := ""
  offsetAt := fun p => p.character
  positionAt := fun o => ⟨0, (o + 10).toNat⟩

/-- A server holding the empty document, with an empty cached token
sequence for it. -/
def emptyDocServer : SmsServer where
  parser := demoParser
  documents := fun u => if u = "file:empty.sms" then some emptyDoc else none
  parseStates := fun u =>
    if u = "file:empty.sms" then some { cst := 0, tokens := [] } else none

/-- A fixed range for the demo diagnostics translators. -/
def demoRange : LspRange :=
  { startPos := ⟨0, 0⟩, endPos := ⟨0, 1⟩ }

/-- A concrete (non-trivial) lexical-diagnostics translator: one diagnostic
per token. -/
def demoLexDiagnostics : TextDocument → List Token → List Diagnostic :=
  fun _ tokens =>
    tokens.map fun t => { range := demoRange, severity := 1, message := t.image }

/-- A concrete (non-trivial) parse-diagnostics translator: one diagnostic
per error. -/
def demoParseDiagnostics : TextDocument → List ParseError → List Diagnostic :=
  fun _ errors =>
    errors.map fun e => { range := demoRange, severity := 1, message := e.message }

/-- A concrete TriG parser adapter that bakes the mode it was handed into
the token stream, making the routed mode observable. -/
def demoTrigParser : TrigParser where
  parseRun := fun text mode =>
    { cst := 0, errors := [], otherParseData := 0, input := [⟨mode ++ text, 0, 0⟩] }

/-- Unfolding `handleCompletion` when the document lookup succeeds: the
response is `smsCompletionResponse` over `usedTokens`, and the cache /
parse-call count depend only on whether the cache had an entry. -/
theorem handleCompletion_found (server : SmsServer) (uri : String) (pos : Position)
    (document : TextDocument) (hdoc : server.documents uri = some document) :
    handleCompletion server uri pos =
      .ok { response := smsCompletionResponse server document
              (usedTokens server uri document) (document.offsetAt pos)
            parseStates :=
              match getParseStateForUri server.parseStates uri with
              | some _ => server.parseStates
              | none =>
                saveParseStateForUri server.parseStates uri
                  { cst := (smsParseDocument server.parser document).cst
                    tokens := (smsParseDocument server.parser document).tokens }
            parseCalls :=
              match getParseStateForUri server.parseStates uri with
              | some _ => 0
              | none => 1 } := by
  unfold handleCompletion usedTokens
  rw [hdoc]
  cases h : getParseStateForUri server.parseStates uri <;> simp [h]

/-- A string of length zero is the empty string. -/
theorem text_empty_of_length_zero (s : String) (h : s.length = 0) : s = "" := by
  cases s with
  | mk data =>
    have hd : data.length = 0 := h
    have hnil : data = [] := List.length_eq_zero.mp hd
    simp [hnil]

/-- Claim C2 (as stated), counterexample: with tokens `ab` at `[0,1]` and
`cd` at `[3,4]` and the cursor at offset 3 — exactly the `startOffset`
boundary of `cd`, not strictly inside it — the in-token early return IS
taken: the response is `none` even though the content-assist query would
offer the `Mapping` continuation.  So a cursor exactly at a token boundary
does not always let completion proceed. -/
theorem C2_boundary_counterexample :
    (demoTokens.get ⟨1, by decide⟩).startOffset = demoDoc.offsetAt ⟨0, 3⟩ ∧
    isCursorInToken demoTokens (demoDoc.offsetAt ⟨0, 3⟩) = true ∧
    (demoParser.computeContentAssist "MappingDoc"
        (prefixTokens demoTokens (demoDoc.offsetAt ⟨0, 3⟩))).any
      (fun completion => completion.nextTokenTypeName = "Mapping") = true ∧
    responseOf (handleCompletion demoServer "file:demo.sms" ⟨0, 3⟩) = some none := by
  refine ⟨rfl, by decide, by decide, by decide⟩

/-- Claim C2 (amended): if the cursor offset falls within
`[startOffset, endOffset]` (inclusive) of the non-empty token following the
token-before-cursor, `handleCompletion` returns no result; a cursor exactly
one position past a token's `endOffset` is never treated as inside it, so
the early return is not taken there. -/
theorem C2_cursor_in_token (server : SmsServer) (uri : String) (pos : Position)
    (document : TextDocument)
    (hdoc : server.documents uri = some document)
    (hin : isCursorInToken (usedTokens server uri document)
      (document.offsetAt pos) = true) :
    responseOf (handleCompletion server uri pos) = some none ∧
    (∀ (tokens : List Token) (C : Nat) (u : Token),
      tokens[(tokenIndexBeforeCursor tokens C + 1).toNat]? = some u →
      C = u.endOffset + 1 → isCursorInToken tokens C = false) := by
  constructor
  · rw [handleCompletion_found server uri pos document hdoc]
    simp [responseOf, smsCompletionResponse, hin]
  · intro tokens C u hu hC
    unfold isCursorInToken
    rw [hu]
    subst hC
    simp

/-- Claim C2 (amended), witness: the cursor at offset 4 sits inside the
non-empty token `cd` spanning `[3,4]`, and the demo server's completion
response is `none`. -/
theorem C2_cursor_in_token_witness :
    isCursorInToken (usedTokens demoServer "file:demo.sms" demoDoc)
        (demoDoc.offsetAt ⟨0, 4⟩) = true ∧
    responseOf (handleCompletion demoServer "file:demo.sms" ⟨0, 4⟩) = some none :=
  ⟨by decide,
    (C2_cursor_in_token demoServer "file:demo.sms" ⟨0, 4⟩ demoDoc rfl (by decide)).1⟩

/-- Claim C3: whenever `handleCompletion` reaches the content-assist query
(document found, cursor not inside a token), it emits exactly one
completion item when the continuation set contains the `Mapping` trigger
type and none otherwise, and a returned item list never holds more than one
item. -/
theorem C3_single_completion_item (server : SmsServer) (uri : String) (pos : Position)
    (document : TextDocument)
    (hdoc : server.documents uri = some document)
    (hnotin : isCursorInToken (usedTokens server uri document)
      (document.offsetAt pos) = false) :
    responseOf (handleCompletion server uri pos) =
      some (if (server.parser.computeContentAssist "MappingDoc"
                (prefixTokens (usedTokens server uri document)
                  (document.offsetAt pos))).any
                (fun completion => completion.nextTokenTypeName = "Mapping")
            then some [smsCompletionItem document (document.offsetAt pos)]
            else none) ∧
    (∀ items : List CompletionItem,
      responseOf (handleCompletion server uri pos) = some (some items) →
      items.length = 1) := by
  have hmain : responseOf (handleCompletion server uri pos) =
      some (if (server.parser.computeContentAssist "MappingDoc"
                (prefixTokens (usedTokens server uri document)
                  (document.offsetAt pos))).any
                (fun completion => completion.nextTokenTypeName = "Mapping")
            then some [smsCompletionItem document (document.offsetAt pos)]
            else none) := by
    rw [handleCompletion_found server uri pos document hdoc]
    simp [responseOf, smsCompletionResponse, hnotin]
  refine ⟨hmain, ?_⟩
  intro items hresp
  rw [hmain] at hresp
  split at hresp
  · simp at hresp
    rw [← hresp]
    rfl
  · simp at hresp

/-- Claim C3, witness: at cursor offset 6 (past both tokens) the demo
server emits exactly the single snippet item. -/
theorem C3_single_completion_item_witness :
    responseOf (handleCompletion demoServer "file:demo.sms" ⟨0, 6⟩) =
      some (if (demoServer.parser.computeContentAssist "MappingDoc"
                (prefixTokens (usedTokens demoServer "file:demo.sms" demoDoc) 6)).any
                (fun completion => completion.nextTokenTypeName = "Mapping")
            then some [smsCompletionItem demoDoc 6]
            else none) :=
  (C3_single_completion_item demoServer "file:demo.sms" ⟨0, 6⟩ demoDoc rfl (by decide)).1

/-- Claim C4: every completion item `handleCompletion` emits carries a text
edit whose replacement range is zero-width (start equals end) at
`positionAt(cursorOffset - 1)`, so accepting it inserts the snippet and
never deletes adjacent text. -/
theorem C4_zero_width_edit (server : SmsServer) (uri : String) (pos : Position)
    (document : TextDocument) (items : List CompletionItem) (item : CompletionItem)
    (hdoc : server.documents uri = some document)
    (hresp : responseOf (handleCompletion server uri pos) = some (some items))
    (hmem : item ∈ items) :
    item.textEdit.range.startPos = item.textEdit.range.endPos ∧
    item.textEdit.range.startPos =
      document.positionAt ((document.offsetAt pos : Int) - 1) := by
  rw [handleCompletion_found server uri pos document hdoc] at hresp
  simp only [responseOf] at hresp
  unfold smsCompletionResponse at hresp
  dsimp only at hresp
  split at hresp
  · simp at hresp
  · split at hresp
    · simp at hresp
      rw [← hresp] at hmem
      rcases List.mem_singleton.mp hmem with rfl
      exact ⟨rfl, rfl⟩
    · simp at hresp

set_option maxRecDepth 4096 in
/-- Claim C4, witness: the item emitted at cursor offset 6 has the
zero-width range anchored at `positionAt(5)`. -/
theorem C4_zero_width_edit_witness :
    (smsCompletionItem demoDoc 6).textEdit.range.startPos =
        (smsCompletionItem demoDoc 6).textEdit.range.endPos ∧
    (smsCompletionItem demoDoc 6).textEdit.range.startPos =
      demoDoc.positionAt ((6 : Int) - 1) :=
  C4_zero_width_edit demoServer "file:demo.sms" ⟨0, 6⟩ demoDoc
    [smsCompletionItem demoDoc 6] (smsCompletionItem demoDoc 6)
    rfl (by decide) (List.mem_singleton.mpr rfl)

/-- Claim C5: with a cached parse state for the URI, `handleCompletion`
uses the cached tokens and performs no parse; with no cached state it
performs exactly one parse and stores the resulting `{cst, tokens}` in the
cache for that URI. -/
theorem C5_cache_memoization (server : SmsServer) (uri : String) (pos : Position)
    (document : TextDocument)
    (hdoc : server.documents uri = some document) :
    (∀ st : ParseState, server.parseStates uri = some st →
      parseCallsOf (handleCompletion server uri pos) = some 0 ∧
      parseStatesOf (handleCompletion server uri pos) = some server.parseStates ∧
      responseOf (handleCompletion server uri pos) =
        some (smsCompletionResponse server document st.tokens
          (document.offsetAt pos))) ∧
    (server.parseStates uri = none →
      parseCallsOf (handleCompletion server uri pos) = some 1 ∧
      parseStatesOf (handleCompletion server uri pos) =
        some (saveParseStateForUri server.parseStates uri
          { cst := (smsParseDocument server.parser document).cst
            tokens := (smsParseDocument server.parser document).tokens }) ∧
      (∀ m : ParseStateMap,
        parseStatesOf (handleCompletion server uri pos) = some m →
        m uri = some { cst := (smsParseDocument server.parser document).cst
                       tokens := (smsParseDocument server.parser document).tokens })) := by
  constructor
  · intro st hst
    rw [handleCompletion_found server uri pos document hdoc]
    have hg : getParseStateForUri server.parseStates uri = some st := hst
    simp [parseCallsOf, parseStatesOf, responseOf, hg, usedTokens]
  · intro hst
    have hg : getParseStateForUri server.parseStates uri = none := hst
    refine ⟨?_, ?_, ?_⟩
    · rw [handleCompletion_found server uri pos document hdoc]
      simp [parseCallsOf, hg]
    · rw [handleCompletion_found server uri pos document hdoc]
      simp [parseStatesOf, hg]
    · intro m hm
      rw [handleCompletion_found server uri pos document hdoc] at hm
      simp [parseStatesOf, hg] at hm
      rw [← hm]
      simp [saveParseStateForUri]

/-- Claim C5, witness: a warm cache yields zero parse calls; a cold cache
yields exactly one. -/
theorem C5_cache_memoization_witness :
    parseCallsOf (handleCompletion demoServer "file:demo.sms" ⟨0, 6⟩) = some 0 ∧
    parseCallsOf (handleCompletion demoServerNoCache "file:demo.sms" ⟨0, 6⟩) = some 1 :=
  ⟨((C5_cache_memoization demoServer "file:demo.sms" ⟨0, 6⟩ demoDoc rfl).1
      { cst := 0, tokens := demoTokens } rfl).1,
    ((C5_cache_memoization demoServerNoCache "file:demo.sms" ⟨0, 6⟩ demoDoc rfl).2
      rfl).1⟩

/-- Claim C6: for every document with empty text, both servers'
content-change handlers send the empty diagnostics batch for the
document's URI, whatever the parse results and whatever the diagnostics
translators would produce. -/
theorem C6_empty_text_clears
    (getLexDiagnostics : TextDocument → List Token → List Diagnostic)
    (getParseDiagnostics : TextDocument → List ParseError → List Diagnostic)
    (document : TextDocument) (smsResults : SmsParseResults)
    (trigResults : TrigParseResults)
    (hempty : document.text = "") :
    SmsLanguageServer.onContentChange getLexDiagnostics getParseDiagnostics
        document smsResults = { uri := document.uri, diagnostics := [] } ∧
    TrigLanguageServer.onContentChange getLexDiagnostics getParseDiagnostics
        document trigResults = { uri := document.uri, diagnostics := [] } := by
  unfold SmsLanguageServer.onContentChange TrigLanguageServer.onContentChange
  rw [hempty]
  exact ⟨rfl, rfl⟩

/-- Claim C6, witness: the empty document with non-trivial translators and
non-empty tokens/errors in the parse results still gets the empty batch. -/
theorem C6_empty_text_clears_witness :
    SmsLanguageServer.onContentChange demoLexDiagnostics demoParseDiagnostics
        emptyDoc { cst := 0, tokens := demoTokens, errors := [⟨"boom"⟩] } =
      { uri := "file:empty.sms", diagnostics := [] } ∧
    TrigLanguageServer.onContentChange demoLexDiagnostics demoParseDiagnostics
        emptyDoc
        { cst := 0, tokens := demoTokens, errors := [⟨"boom"⟩], otherParseData := 0 } =
      { uri := "file:empty.sms", diagnostics := [] } :=
  C6_empty_text_clears demoLexDiagnostics demoParseDiagnostics emptyDoc
    { cst := 0, tokens := demoTokens, errors := [⟨"boom"⟩] }
    { cst := 0, tokens := demoTokens, errors := [⟨"boom"⟩], otherParseData := 0 }
    rfl

/-- Claim C7: for every non-empty document, both servers'
content-change handlers send one batch whose diagnostics are exactly the
lexical diagnostics followed by the syntactic (parse) diagnostics. -/
theorem C7_diagnostics_concatenation
    (getLexDiagnostics : TextDocument → List Token → List Diagnostic)
    (getParseDiagnostics : TextDocument → List ParseError → List Diagnostic)
    (document : TextDocument) (smsResults : SmsParseResults)
    (trigResults : TrigParseResults)
    (hne : document.text ≠ "") :
    SmsLanguageServer.onContentChange getLexDiagnostics getParseDiagnostics
        document smsResults =
      { uri := document.uri
        diagnostics := getLexDiagnostics document smsResults.tokens ++
          getParseDiagnostics document smsResults.errors } ∧
    TrigLanguageServer.onContentChange getLexDiagnostics getParseDiagnostics
        document trigResults =
      { uri := document.uri
        diagnostics := getLexDiagnostics document trigResults.tokens ++
          getParseDiagnostics document trigResults.errors } := by
  have hlen : ¬(document.text.length = 0) := fun h =>
    hne (text_empty_of_length_zero document.text h)
  unfold SmsLanguageServer.onContentChange TrigLanguageServer.onContentChange
  rw [if_neg hlen, if_neg hlen]
  exact ⟨rfl, rfl⟩

/-- Claim C7, witness: the demo document with the demo translators gets the
concatenated batch in lexical-then-syntactic order. -/
theorem C7_diagnostics_concatenation_witness :
    SmsLanguageServer.onContentChange demoLexDiagnostics demoParseDiagnostics
        demoDoc { cst := 0, tokens := demoTokens, errors := [⟨"boom"⟩] } =
      { uri := "file:demo.sms"
        diagnostics := demoLexDiagnostics demoDoc demoTokens ++
          demoParseDiagnostics demoDoc [⟨"boom"⟩] } ∧
    TrigLanguageServer.onContentChange demoLexDiagnostics demoParseDiagnostics
        demoDoc
        { cst := 0, tokens := demoTokens, errors := [⟨"boom"⟩], otherParseData := 0 } =
      { uri := "file:demo.sms"
        diagnostics := demoLexDiagnostics demoDoc demoTokens ++
          demoParseDiagnostics demoDoc [⟨"boom"⟩] } :=
  C7_diagnostics_concatenation demoLexDiagnostics demoParseDiagnostics demoDoc
    { cst := 0, tokens := demoTokens, errors := [⟨"boom"⟩] }
    { cst := 0, tokens := demoTokens, errors := [⟨"boom"⟩], otherParseData := 0 }
    (by decide)

/-- Claim C8: at initialization the dialect mode is adopted only for the
exact values `stardog` or `standard`; any invalid or absent value leaves
the default mode `standard` in place (no error is possible — the handler is
a total function), and every parse invocation passes the session's mode
alongside the document text to the parser adapter. -/
theorem C8_dialect_mode :
    (TrigLanguageServer.onInitialization initialTrigState
        { initializationOptions := some { mode := some "stardog" } }).mode =
      "stardog" ∧
    (TrigLanguageServer.onInitialization initialTrigState
        { initializationOptions := some { mode := some "standard" } }).mode =
      "standard" ∧
    (∀ params : InitializeParams,
      (∀ opts : InitializationOptions, params.initializationOptions = some opts →
        opts.mode ≠ some "stardog" ∧ opts.mode ≠ some "standard") →
      (TrigLanguageServer.onInitialization initialTrigState params).mode =
        "standard") ∧
    (∀ (parser : TrigParser) (s : TrigServerState) (document : TextDocument),
      TrigLanguageServer.parseDocument parser s document =
        { cst := (parser.parseRun document.text s.mode).cst
          tokens := (parser.parseRun document.text s.mode).input
          errors := (parser.parseRun document.text s.mode).errors
          otherParseData := (parser.parseRun document.text s.mode).otherParseData }) := by
  refine ⟨rfl, rfl, ?_, fun parser s document => rfl⟩
  intro params h
  unfold TrigLanguageServer.onInitialization
  cases hopts : params.initializationOptions with
  | none => rfl
  | some opts =>
    rcases h opts hopts with ⟨h1, h2⟩
    dsimp only
    rw [if_neg]
    · rfl
    · intro hcontra
      rcases hcontra with hc | hc
      · exact h1 hc
      · exact h2 hc

/-- Claim C8, witness: an unrecognized mode value (`turtle`) falls back to
`standard`, and the demo TriG adapter observably receives the session's
mode together with the document text. -/
theorem C8_dialect_mode_witness :
    (TrigLanguageServer.onInitialization initialTrigState
        { initializationOptions := some { mode := some "turtle" } }).mode =
      "standard" ∧
    TrigLanguageServer.parseDocument demoTrigParser { mode := "stardog" } demoDoc =
      { cst := (demoTrigParser.parseRun "ab cd" "stardog").cst
        tokens := (demoTrigParser.parseRun "ab cd" "stardog").input
        errors := (demoTrigParser.parseRun "ab cd" "stardog").errors
        otherParseData := (demoTrigParser.parseRun "ab cd" "stardog").otherParseData } :=
  ⟨C8_dialect_mode.2.2.1 { initializationOptions := some { mode := some "turtle" } }
      (fun opts hopts => by
        cases hopts
        exact ⟨by decide, by decide⟩),
    C8_dialect_mode.2.2.2 demoTrigParser { mode := "stardog" } demoDoc⟩

/-- Claim C9: the source of `handleCompletion` dereferences the result of
`documents.get(uri)` unconditionally; when no document is open for the URI
(`documents.get` yields `undefined`), `document.offsetAt` throws a
`TypeError` instead of returning no candidates. -/
theorem C9_missing_document_throws :
    handleCompletion noDocServer "file:missing.sms" ⟨0, 0⟩ =
      Except.error JsError.typeError := rfl

/-- Claim C10: when a completion item is emitted with the cursor at
absolute offset 0, its text-edit anchor is computed from
`positionAt(cursorOffset - 1)` — the negative offset `-1` — so the
one-character-back arithmetic is not clamped inside the completion
engine. -/
theorem C10_unclamped_anchor (server : SmsServer) (uri : String) (pos : Position)
    (document : TextDocument) (items : List CompletionItem) (item : CompletionItem)
    (hdoc : server.documents uri = some document)
    (hoff : document.offsetAt pos = 0)
    (hresp : responseOf (handleCompletion server uri pos) = some (some items))
    (hmem : item ∈ items) :
    item.textEdit.range.startPos = document.positionAt (-1) ∧
    item.textEdit.range.endPos = document.positionAt (-1) := by
  rw [handleCompletion_found server uri pos document hdoc] at hresp
  simp only [responseOf] at hresp
  unfold smsCompletionResponse at hresp
  dsimp only at hresp
  split at hresp
  · simp at hresp
  · split at hresp
    · simp at hresp
      rw [← hresp] at hmem
      rcases List.mem_singleton.mp hmem with rfl
      constructor
      · show document.positionAt ((document.offsetAt pos : Int) - 1) =
          document.positionAt (-1)
        rw [hoff]
        rfl
      · show document.positionAt ((document.offsetAt pos : Int) - 1) =
          document.positionAt (-1)
        rw [hoff]
        rfl
    · simp at hresp

set_option maxRecDepth 4096 in
/-- Claim C10, witness: the empty-document server emits an item at cursor
offset 0 whose anchor is `positionAt(-1)`. -/
theorem C10_unclamped_anchor_witness :
    (smsCompletionItem emptyDoc 0).textEdit.range.startPos =
        emptyDoc.positionAt (-1) ∧
    (smsCompletionItem emptyDoc 0).textEdit.range.endPos =
        emptyDoc.positionAt (-1) :=
  C10_unclamped_anchor emptyDocServer "file:empty.sms" ⟨0, 0⟩ emptyDoc
    [smsCompletionItem emptyDoc 0] (smsCompletionItem emptyDoc 0)
    rfl rfl (by decide) (List.mem_singleton.mpr rfl)
